import Mathlib

/-!
Verification of the password-quality evaluator from the notebook
"Bad passwords and the NIST guidelines".

Strings are modelled as `List Char` (Python strings are sequences of
Unicode code points; `len`, indexing and comparison in the notebook all
operate on code points).  Each pandas column computation of the notebook
becomes a pure Lean function on one credential; the data-frame pipeline
becomes a `List.map`.
-/

namespace NistPasswords

/-- One row of `users`: `user_name` and plaintext `password`. -/
structure Credential where
  user_name : List Char
  password : List Char
deriving DecidableEq, Repr

/-- The two reference word lists read in cells 5 and 9:
the 10000 common passwords and the 10000 common English words,
kept verbatim as read (the notebook applies no normalization to them). -/
structure Refs where
  common_passwords : List (List Char)
  words : List (List Char)
deriving DecidableEq, Repr

/-- The length bound hard-coded in cell 3: `users['length'] < 8`. -/
def minLength : Nat := 8

/-- Cell 3: `users['too_short'] = users['password'].str.len() < 8`. -/
def too_short (pw : List Char) : Bool :=
  pw.length < minLength

/-- Cell 7: `users['common_password'] = users['password'].isin(common_passwords)`.
`Series.isin` is verbatim, case-sensitive membership. -/
def common_password (pw : List Char) (commonPasswords : List (List Char)) : Bool :=
  commonPasswords.contains pw

/-- `str.lower()`: per-code-point lowercasing. -/
def lowerStr (s : List Char) : List Char :=
  s.map Char.toLower

/-- Cell 9: `users['common_word'] = users['password'].str.lower().isin(words)`.
The password is lowercased, the word list is used as read. -/
def common_word (pw : List Char) (words : List (List Char)) : Bool :=
  words.contains (lowerStr pw)

/-- A regex word character, `\w` (modulo the non-ASCII fringe of Unicode
word characters, which no credential in this data set uses): letters,
digits and the underscore. -/
def isWordChar (c : Char) : Bool :=
  c.isAlphanum || c == '_'

/-- Cell 11: `users['user_name'].str.extract(r'^(\w+)\.')`.
`re.search` anchored at the start: the maximal initial run of word
characters, provided it is non-empty and immediately followed by a
literal dot (backtracking inside the run cannot help because a shorter
prefix is followed by a word character, never by a dot). -/
def first_name (id : List Char) : Option (List Char) :=
  if id.takeWhile isWordChar ≠ [] ∧
      (id.drop (id.takeWhile isWordChar).length).head? = some '.' then
    some (id.takeWhile isWordChar)
  else
    none

/-- Cell 11: `users['user_name'].str.extract(r'\.(\w+$)')`.
A match needs a dot followed by a non-empty run of word characters that
reaches the end of the string, so the only possible match site is the
last dot: the captured group is the maximal trailing run of word
characters, provided it is non-empty and preceded by a literal dot. -/
def last_name (id : List Char) : Option (List Char) :=
  if id.reverse.takeWhile isWordChar ≠ [] ∧
      (id.reverse.drop (id.reverse.takeWhile isWordChar).length).head? = some '.' then
    some (id.reverse.takeWhile isWordChar).reverse
  else
    none

/-- Cell 11: `uses_name = (password.str.lower() == first_name) | (password.str.lower() == last_name)`.
A missing extraction (NaN) compares unequal to every string. -/
def uses_name (id pw : List Char) : Bool :=
  (match first_name id with
   | some t => lowerStr pw == t
   | none => false)
  ||
  (match last_name id with
   | some t => lowerStr pw == t
   | none => false)

/-- Does the regex `(.)\1{3,}` match at the very start of the list:
four equal leading characters whose common value is not a newline
(`.` does not match `\n` without `re.DOTALL`). -/
def startsWithQuad : List Char → Bool
  | a :: b :: c :: d :: _ => a != '\n' && a == b && a == c && a == d
  | _ => false

/-- Cell 13: `users['password'].str.contains(r'(.)\1{3,}')`.
`re.search` tries every start position left to right. -/
def too_many_repeats : List Char → Bool
  | [] => false
  | a :: rest => startsWithQuad (a :: rest) || too_many_repeats rest

/-- The per-rule boolean vector, one column per rule of the notebook. -/
structure RuleFlags where
  too_short : Bool
  common_password : Bool
  common_word : Bool
  uses_name : Bool
  too_many_repeats : Bool
deriving DecidableEq, Repr

/-- Cells 3-13 applied to one credential. -/
def ruleFlags (c : Credential) (r : Refs) : RuleFlags where
  too_short := too_short c.password
  common_password := common_password c.password r.common_passwords
  common_word := common_word c.password r.words
  uses_name := uses_name c.user_name c.password
  too_many_repeats := too_many_repeats c.password

/-- Cell 15: `bad_password = too_short | common_password | common_word | uses_name | too_many_repeats`. -/
def bad_password (f : RuleFlags) : Bool :=
  f.too_short || f.common_password || f.common_word || f.uses_name || f.too_many_repeats

/-- The full outcome for one row. -/
structure Verdict where
  credential : Credential
  flags : RuleFlags
  is_bad : Bool
deriving DecidableEq, Repr

/-- Evaluate one credential against the reference lists. -/
def evaluate (c : Credential) (r : Refs) : Verdict where
  credential := c
  flags := ruleFlags c r
  is_bad := bad_password (ruleFlags c r)

/-- The whole pipeline: every row of `users` gets its verdict, in row order. -/
def evaluateAll (cs : List Credential) (r : Refs) : List Verdict :=
  cs.map (fun c => evaluate c r)

/-- Modelled from the spec: the single-pass run counter described for
`RepetitionDetector.hasExcessRun` (the notebook has no such function; it
uses the regex of `too_many_repeats` with the threshold fixed at 4).
Tracks the current character and the length of its current run, resetting
on any character change; true as soon as a run reaches the threshold. -/
def hasExcessRunAux (threshold : Nat) : List Char → Char → Nat → Bool
  | [], _, run => threshold ≤ run
  | c :: rest, cur, run =>
      if threshold ≤ run then true
      else if c == cur then hasExcessRunAux threshold rest cur (run + 1)
      else hasExcessRunAux threshold rest c 1

/-- Modelled from the spec: `RepetitionDetector.hasExcessRun(secret, threshold)`;
false on the empty string. -/
def hasExcessRun (s : List Char) (threshold : Nat) : Bool :=
  match s with
  | [] => false
  | c :: rest => hasExcessRunAux threshold rest c 1

/-- Modelled from the spec: `PolicyConstants` — {min_length, repetition_threshold};
the notebook hard-codes min_length = 8 (cell 3) and repetition threshold
= 4 (the regex quantifier in cell 13) and has no configuration record. -/
structure PolicyConstants where
  min_length : Int
  repetition_threshold : Int
deriving DecidableEq, Repr

/-- The notebook's hard-coded policy values. -/
def defaultPolicy : PolicyConstants where
  min_length := 8
  repetition_threshold := 4

/-- Modelled from the spec: the error taxonomy of §7; the notebook raises
no such error anywhere. -/
inductive EvalError where
  | invalidConfigurationError
deriving DecidableEq, Repr

/-- The length rule generalized to a configurable bound, as §4.4 describes. -/
def tooShortP (minL : Int) (pw : List Char) : Bool :=
  (pw.length : Int) < minL

/-- The rule vector under a configurable policy, as §4.4 describes:
the repetition rule is the spec's run counter at the configured threshold. -/
def ruleFlagsP (p : PolicyConstants) (c : Credential) (r : Refs) : RuleFlags where
  too_short := tooShortP p.min_length c.password
  common_password := common_password c.password r.common_passwords
  common_word := common_word c.password r.words
  uses_name := uses_name c.user_name c.password
  too_many_repeats := hasExcessRun c.password p.repetition_threshold.toNat

/-- One verdict under a configurable policy. -/
def evaluateP (p : PolicyConstants) (c : Credential) (r : Refs) : Verdict where
  credential := c
  flags := ruleFlagsP p c r
  is_bad := bad_password (ruleFlagsP p c r)

/-- Modelled from the spec: §7 — configuration is validated at evaluation
start; out-of-range constants (min_length <= 0 or repetition_threshold < 1)
fail with InvalidConfigurationError and produce no partial results. -/
def evaluateAllChecked (p : PolicyConstants) (cs : List Credential) (r : Refs) :
    Except EvalError (List Verdict) :=
  if p.min_length ≤ 0 || p.repetition_threshold < 1 then
    .error .invalidConfigurationError
  else
    .ok (cs.map (fun c => evaluateP p c r))

/-! ### Helper lemmas -/

theorem too_many_repeats_of_quad (pre suf : List Char) (c : Char) (hc : c ≠ '\n') :
    too_many_repeats (pre ++ c :: c :: c :: c :: suf) = true := by
  induction pre with
  | nil => simp [too_many_repeats, startsWithQuad, bne_iff_ne, hc]
  | cons x xs ih => simp [too_many_repeats, ih]

theorem quad_of_too_many_repeats (s : List Char) (h : too_many_repeats s = true) :
    ∃ pre c suf, c ≠ '\n' ∧ s = pre ++ c :: c :: c :: c :: suf := by
  induction s with
  | nil => simp [too_many_repeats] at h
  | cons a rest ih =>
      rw [show too_many_repeats (a :: rest)
            = (startsWithQuad (a :: rest) || too_many_repeats rest) from rfl] at h
      rcases Bool.or_eq_true_iff.mp h with hq | hr
      · match rest, hq with
        | b :: c :: d :: tail, hq =>
            simp only [startsWithQuad, Bool.and_eq_true, bne_iff_ne, beq_iff_eq] at hq
            obtain ⟨⟨⟨hn, hb⟩, hcₑ⟩, hd⟩ := hq
            exact ⟨[], a, tail, hn, by rw [← hb, ← hcₑ, ← hd]; rfl⟩
      · obtain ⟨pre, c, suf, hc, hs⟩ := ih hr
        exact ⟨a :: pre, c, suf, hc, by simp [hs]⟩

theorem get_of_quad_decomp (pre suf : List Char) (c : Char) (k : Nat) (hk : k < 4) :
    (pre ++ c :: c :: c :: c :: suf).get? (pre.length + k) = some c := by
  rw [List.get?_append_right (Nat.le_add_right _ _)]
  simp only [Nat.add_sub_cancel_left]
  interval_cases k <;> rfl

theorem takeWhile_word_append (w rest : List Char) (hw : w.all isWordChar = true) :
    (w ++ '.' :: rest).takeWhile isWordChar = w := by
  induction w with
  | nil => simp [List.takeWhile_cons, isWordChar]
  | cons a as ih =>
      simp only [List.all_cons, Bool.and_eq_true] at hw
      simp [List.takeWhile_cons, hw.1, ih hw.2]

theorem first_name_of_decomp (g rest : List Char) (hg : g ≠ [])
    (hw : g.all isWordChar = true) :
    first_name (g ++ '.' :: rest) = some g := by
  unfold first_name
  rw [takeWhile_word_append g rest hw, List.drop_left]
  simp [hg]

theorem last_name_of_decomp (pre f : List Char) (hf : f ≠ [])
    (hw : f.all isWordChar = true) :
    last_name (pre ++ '.' :: f) = some f := by
  unfold last_name
  have h1 : (pre ++ '.' :: f).reverse = f.reverse ++ '.' :: pre.reverse := by
    simp
  have hw' : f.reverse.all isWordChar = true := by
    rw [List.all_reverse]; exact hw
  rw [h1, takeWhile_word_append _ _ hw', List.drop_left]
  have hf' : f.reverse ≠ [] := by
    simpa using hf
  simp [hf']

theorem first_name_word (id w : List Char) (h : first_name id = some w) :
    ∀ c ∈ w, isWordChar c = true := by
  unfold first_name at h
  split at h
  · cases h
    intro c hc
    exact List.mem_takeWhile_imp hc
  · cases h

theorem last_name_word (id w : List Char) (h : last_name id = some w) :
    ∀ c ∈ w, isWordChar c = true := by
  unfold last_name at h
  split at h
  · cases h
    intro c hc
    exact List.mem_takeWhile_imp (List.mem_reverse.mp hc)
  · cases h

theorem first_name_dot_mem (id w : List Char) (h : first_name id = some w) :
    '.' ∈ id := by
  unfold first_name at h
  split at h
  case isTrue hcond =>
    obtain ⟨hd, hcond⟩ := And.comm.mp hcond
    have : '.' ∈ id.drop (id.takeWhile isWordChar).length :=
      List.mem_of_mem_head? (by rw [hd]; exact rfl)
    exact List.mem_of_mem_drop this
  case isFalse => cases h

theorem last_name_dot_mem (id w : List Char) (h : last_name id = some w) :
    '.' ∈ id := by
  unfold last_name at h
  split at h
  case isTrue hcond =>
    obtain ⟨hd, hcond⟩ := And.comm.mp hcond
    have : '.' ∈ id.reverse.drop (id.reverse.takeWhile isWordChar).length :=
      List.mem_of_mem_head? (by rw [hd]; exact rfl)
    exact List.mem_reverse.mp (List.mem_of_mem_drop this)
  case isFalse => cases h

theorem dot_mem_lowerStr (s : List Char) (hs : '.' ∈ s) : '.' ∈ lowerStr s :=
  List.mem_map.mpr ⟨'.', hs, by decide⟩

theorem lowerStr_beq_word_token (s w : List Char) (hs : '.' ∈ s)
    (hw : ∀ c ∈ w, isWordChar c = true) :
    (lowerStr s == w) = false := by
  rw [beq_eq_false_iff_ne]
  intro h
  have hmem : '.' ∈ w := h ▸ dot_mem_lowerStr s hs
  exact absurd (hw '.' hmem) (by decide)

/-! ### Claim theorems -/

/-- C1, counterexample: the blacklist check of cell 7 is verbatim `isin`
membership, so the secret "PASSWORD" is NOT flagged against a blacklist
holding only "password", even though its lowercasing is in the
lowercase-normalized blacklist. -/
theorem common_password_not_case_insensitive :
    common_password ['P', 'A', 'S', 'S', 'W', 'O', 'R', 'D']
      [['p', 'a', 's', 's', 'w', 'o', 'r', 'd']] = false ∧
    ([['p', 'a', 's', 's', 'w', 'o', 'r', 'd']].map lowerStr).contains
      (lowerStr ['P', 'A', 'S', 'S', 'W', 'O', 'R', 'D']) = true := by
  decide

/-- C1, amended: blacklist membership is case-sensitive: in_blacklist
(common_password) is true exactly when the secret appears verbatim in
the blacklist; no lowercasing is applied to either side. -/
theorem common_password_iff_verbatim_mem (pw : List Char) (bl : List (List Char)) :
    common_password pw bl = true ↔ pw ∈ bl := by
  simp [common_password]

/-- C2, counterexample: for the identifier "a.b.c" the family token is
"c" (the suffix after the LAST dot), not "b.c" as the claim states. -/
theorem last_name_splits_at_last_dot :
    last_name ['a', '.', 'b', '.', 'c'] ≠ some ['b', '.', 'c'] ∧
    last_name ['a', '.', 'b', '.', 'c'] = some ['c'] := by
  decide

/-- C2, amended: given = the word-character run before the first dot;
family = the word-character run after the LAST dot (for "a.b.c" the
family token is "c", not "b.c"): the given-name regex splits at the
first dot, but the family-name regex anchors at the end of the string
and so splits at the last dot. -/
theorem identity_extraction_split_points :
    (∀ g rest : List Char, g ≠ [] → g.all isWordChar = true →
        first_name (g ++ '.' :: rest) = some g) ∧
    (∀ pre f : List Char, f ≠ [] → f.all isWordChar = true →
        last_name (pre ++ '.' :: f) = some f) :=
  ⟨first_name_of_decomp, last_name_of_decomp⟩

/-- C2, witness: at identifier "a.b.c" the theorem yields given "a"
and family "c". -/
theorem identity_extraction_split_points_witness :
    first_name ['a', '.', 'b', '.', 'c'] = some ['a'] ∧
    last_name ['a', '.', 'b', '.', 'c'] = some ['c'] :=
  ⟨identity_extraction_split_points.1 ['a'] ['b', '.', 'c'] (by decide) (by decide),
   identity_extraction_split_points.2 ['a', '.', 'b'] ['c'] (by decide) (by decide)⟩

/-- C3, counterexample: "\n\n\n\n" has a contiguous run of one identical
character of length 4 (the spec's run counter reports it), yet the
notebook's regex detector does not flag it, refuting the claimed
equivalence between the detector and the run criterion. -/
theorem repetition_detector_misses_newline_runs :
    too_many_repeats ['\n', '\n', '\n', '\n'] = false ∧
    hasExcessRun ['\n', '\n', '\n', '\n'] 4 = true := by
  decide

/-- C3, amended: the detector flags a secret iff some single contiguous
run of one identical NON-NEWLINE character reaches length 4 (the regex
metacharacter does not match newlines); the counter still resets on any
character change, and the claim's concrete examples all hold:
"aaaa" true, "aaa" false, "aabaa" false, "" false. -/
theorem too_many_repeats_iff_nonnewline_run :
    (∀ s : List Char, too_many_repeats s = true ↔
        ∃ pre c suf, c ≠ '\n' ∧ s = pre ++ c :: c :: c :: c :: suf) ∧
    too_many_repeats ['a', 'a', 'a', 'a'] = true ∧
    too_many_repeats ['a', 'a', 'a'] = false ∧
    too_many_repeats ['a', 'a', 'b', 'a', 'a'] = false ∧
    too_many_repeats [] = false := by
  refine ⟨fun s => ⟨quad_of_too_many_repeats s, ?_⟩, by decide, by decide, by decide, rfl⟩
  rintro ⟨pre, c, suf, hc, rfl⟩
  exact too_many_repeats_of_quad pre suf c hc

/-- C4: the overall verdict equals the OR of exactly the five flags, and
every flag of the verdict equals its independently computed rule — all
five rules are always evaluated, none short-circuits another. -/
theorem bad_password_or_of_five_flags (c : Credential) (r : Refs) :
    (evaluate c r).flags.too_short = too_short c.password ∧
    (evaluate c r).flags.common_password = common_password c.password r.common_passwords ∧
    (evaluate c r).flags.common_word = common_word c.password r.words ∧
    (evaluate c r).flags.uses_name = uses_name c.user_name c.password ∧
    (evaluate c r).flags.too_many_repeats = too_many_repeats c.password ∧
    (evaluate c r).is_bad =
      (too_short c.password || common_password c.password r.common_passwords ||
       common_word c.password r.words || uses_name c.user_name c.password ||
       too_many_repeats c.password) :=
  ⟨rfl, rfl, rfl, rfl, rfl, rfl⟩

/-- C5: too_short is true iff the secret's length in code points is
strictly below minLength = 8; a secret of length exactly 8 is not
flagged. -/
theorem too_short_iff_below_min (pw : List Char) :
    (too_short pw = true ↔ pw.length < minLength) ∧
    (pw.length = minLength → too_short pw = false) := by
  constructor
  · simp [too_short]
  · intro h
    simp [too_short, h, minLength]

/-- C5, witness: an 8-character secret is not flagged; a 7-character one is. -/
theorem too_short_iff_below_min_witness :
    too_short ['a', 'b', 'c', 'd', 'e', 'f', 'g', 'h'] = false ∧
    too_short ['a', 'b', 'c', 'd', 'e', 'f', 'g'] = true :=
  ⟨(too_short_iff_below_min _).2 (by decide),
   (too_short_iff_below_min _).1.mpr (by decide)⟩

/-- C6: an identifier without a dot yields no identity tokens — both
extractions return none, no error is raised (the functions are total),
and matches_identity (uses_name) is false for every secret. -/
theorem no_dot_degrades_gracefully (id pw : List Char) (h : '.' ∉ id) :
    first_name id = none ∧ last_name id = none ∧ uses_name id pw = false := by
  have hfn : first_name id = none := by
    unfold first_name
    rw [if_neg]
    rintro ⟨-, hd⟩
    exact h (List.mem_of_mem_drop (List.mem_of_mem_head? (by rw [hd]; exact rfl)))
  have hln : last_name id = none := by
    unfold last_name
    rw [if_neg]
    rintro ⟨-, hd⟩
    exact h (List.mem_reverse.mp
      (List.mem_of_mem_drop (List.mem_of_mem_head? (by rw [hd]; exact rfl))))
  refine ⟨hfn, hln, ?_⟩
  unfold uses_name
  rw [hfn, hln]
  rfl

/-- C6, witness: identifier "alice" has no dot; both tokens are absent
and the secret "alice" does not match. -/
theorem no_dot_degrades_gracefully_witness :
    first_name ['a', 'l', 'i', 'c', 'e'] = none ∧
    last_name ['a', 'l', 'i', 'c', 'e'] = none ∧
    uses_name ['a', 'l', 'i', 'c', 'e'] ['a', 'l', 'i', 'c', 'e'] = false :=
  no_dot_degrades_gracefully _ _ (by decide)

/-- C9: a secret equal to the full identifier (which contains a dot) is
never flagged by uses_name: both identity tokens consist of word
characters only, while the lowercased secret still contains the dot. -/
theorem full_identifier_secret_never_matches (ident pw : List Char)
    (hdot : '.' ∈ ident) (heq : pw = ident) :
    uses_name ident pw = false := by
  subst heq
  have h1 : (match first_name pw with
             | some t => lowerStr pw == t
             | none => false) = false := by
    cases hf : first_name pw with
    | none => rfl
    | some w => exact lowerStr_beq_word_token pw w hdot (first_name_word pw w hf)
  have h2 : (match last_name pw with
             | some t => lowerStr pw == t
             | none => false) = false := by
    cases hl : last_name pw with
    | none => rfl
    | some w => exact lowerStr_beq_word_token pw w hdot (last_name_word pw w hl)
  unfold uses_name
  rw [h1, h2]
  rfl

/-- C9, witness: identifier "vance.jennings" with the identical secret
is not flagged. -/
theorem full_identifier_secret_never_matches_witness :
    uses_name ['v', 'a', 'n', 'c', 'e', '.', 'j', 'e', 'n', 'n', 'i', 'n', 'g', 's']
      ['v', 'a', 'n', 'c', 'e', '.', 'j', 'e', 'n', 'n', 'i', 'n', 'g', 's'] = false :=
  full_identifier_secret_never_matches _ _ (by decide) rfl

/-- C10, counterexample: "aaaa\n\n\n\n" contains a contiguous run of
four newline characters, yet the detector flags it (the leading "aaaa"
matches the regex), so a secret containing a newline run is not always
exempt as the claim states. -/
theorem newline_run_secret_still_flagged :
    (∃ pre suf, ['a', 'a', 'a', 'a', '\n', '\n', '\n', '\n']
        = pre ++ '\n' :: '\n' :: '\n' :: '\n' :: suf) ∧
    too_many_repeats ['a', 'a', 'a', 'a', '\n', '\n', '\n', '\n'] = true :=
  ⟨⟨['a', 'a', 'a', 'a'], [], rfl⟩, by decide⟩

/-- C10, amended: a newline run never by itself triggers the detector —
if every contiguous quadruple of equal characters in the secret consists
of newlines, the secret is not flagged (so "ab\n\n\n\ncd" is unflagged
despite its newline run, because the regex metacharacter does not match
newlines) — while a run of four of any non-newline character anywhere
in the secret always flags it, even alongside a newline run. -/
theorem newline_runs_are_exempt :
    (∀ s : List Char,
        (∀ i, i < s.length → s.get? i = s.get? (i + 1) → s.get? (i + 1) = s.get? (i + 2) →
            s.get? (i + 2) = s.get? (i + 3) → s.get? i = some '\n') →
        too_many_repeats s = false) ∧
    (∀ (s pre suf : List Char) (c : Char), c ≠ '\n' →
        s = pre ++ c :: c :: c :: c :: suf → too_many_repeats s = true) := by
  constructor
  · intro s hq
    cases hb : too_many_repeats s with
    | false => rfl
    | true =>
        exfalso
        obtain ⟨pre, c, suf, hc, rfl⟩ := quad_of_too_many_repeats s hb
        have hlen : pre.length < (pre ++ c :: c :: c :: c :: suf).length := by
          simp only [List.length_append, List.length_cons]
          omega
        have e0 := get_of_quad_decomp pre suf c 0 (by omega)
        have e1 := get_of_quad_decomp pre suf c 1 (by omega)
        have e2 := get_of_quad_decomp pre suf c 2 (by omega)
        have e3 := get_of_quad_decomp pre suf c 3 (by omega)
        rw [Nat.add_zero] at e0
        have hfin := hq pre.length hlen (by rw [e0, e1]) (by rw [e1, e2]) (by rw [e2, e3])
        rw [e0] at hfin
        exact hc (Option.some.inj hfin)
  · exact fun _ pre suf c hc hs => hs ▸ too_many_repeats_of_quad pre suf c hc

/-- C10, witness: "ab\n\n\n\ncd" contains a newline run but no other
quadruple and is not flagged; "aaaa\n\n\n\n" has a non-newline run and
is flagged. -/
theorem newline_runs_are_exempt_witness :
    too_many_repeats ['a', 'b', '\n', '\n', '\n', '\n', 'c', 'd'] = false ∧
    too_many_repeats ['a', 'a', 'a', 'a', '\n', '\n', '\n', '\n'] = true :=
  ⟨newline_runs_are_exempt.1 _ (by decide),
   newline_runs_are_exempt.2 _ [] ['\n', '\n', '\n', '\n'] 'a' (by decide) rfl⟩

/-- C8: the pipeline is deterministic and order-preserving: the output
has one verdict per credential, the i-th verdict is the evaluation of
the i-th input credential, and any two evaluations of the same input
are identical. -/
theorem evaluation_deterministic_order_preserving (cs : List Credential) (r : Refs) :
    (evaluateAll cs r).length = cs.length ∧
    (∀ i, (evaluateAll cs r).get? i = (cs.get? i).map (fun c => evaluate c r)) ∧
    (∀ vs₁ vs₂, vs₁ = evaluateAll cs r → vs₂ = evaluateAll cs r → vs₁ = vs₂) := by
  refine ⟨by simp [evaluateAll], fun i => ?_, fun vs₁ vs₂ h₁ h₂ => h₁.trans h₂.symm⟩
  simp [evaluateAll]

/-- C8, witness: on a one-credential store both evaluations agree and
the first output verdict is the evaluation of the first input. -/
theorem evaluation_deterministic_order_preserving_witness :
    evaluateAll [⟨['a', '.', 'b'], ['p', 'w']⟩] ⟨[], []⟩ =
      evaluateAll [⟨['a', '.', 'b'], ['p', 'w']⟩] ⟨[], []⟩ ∧
    (evaluateAll [⟨['a', '.', 'b'], ['p', 'w']⟩] ⟨[], []⟩).get? 0 =
      some (evaluate ⟨['a', '.', 'b'], ['p', 'w']⟩ ⟨[], []⟩) :=
  ⟨(evaluation_deterministic_order_preserving _ _).2.2 _ _ rfl rfl,
   ((evaluation_deterministic_order_preserving _ _).2.1 0).trans rfl⟩

/-- C7 (spec-modelled: the notebook has no configurable policy — cell 3
hard-codes 8 and cell 13 hard-codes the threshold 4 inside the regex —
so validation is modelled from §7 of the spec): out-of-range constants
make evaluation fail with InvalidConfigurationError and produce no
verdicts, while in-range constants never produce that error. -/
theorem invalid_configuration_rejected (p : PolicyConstants) (cs : List Credential)
    (r : Refs) :
    (p.min_length ≤ 0 ∨ p.repetition_threshold < 1 →
        evaluateAllChecked p cs r = .error .invalidConfigurationError) ∧
    (0 < p.min_length → 1 ≤ p.repetition_threshold →
        evaluateAllChecked p cs r = .ok (cs.map (fun c => evaluateP p c r))) := by
  constructor
  · intro h
    have hb : (p.min_length ≤ 0 || p.repetition_threshold < 1) = true := by
      rcases h with h | h <;> simp [h]
    simp [evaluateAllChecked, hb]
  · intro h1 h2
    have hb : (p.min_length ≤ 0 || p.repetition_threshold < 1) = false := by
      simp only [Bool.or_eq_false_iff, decide_eq_false_iff_not, not_le, not_lt]
      exact ⟨h1, h2⟩
    simp [evaluateAllChecked, hb]

/-- C7, witness: min_length 0 is rejected with the configuration error;
the notebook's hard-coded policy (8, 4) evaluates the empty store to an
empty verdict list with no error. -/
theorem invalid_configuration_rejected_witness :
    evaluateAllChecked ⟨0, 4⟩ [] ⟨[], []⟩ = .error .invalidConfigurationError ∧
    evaluateAllChecked defaultPolicy [] ⟨[], []⟩ = .ok [] :=
  ⟨(invalid_configuration_rejected ⟨0, 4⟩ [] ⟨[], []⟩).1 (Or.inl (by decide)),
   (invalid_configuration_rejected defaultPolicy [] ⟨[], []⟩).2 (by decide) (by decide)⟩

end NistPasswords
